import Mathlib

/-!
Verification of the VIAME CSV track serializer
(src/server/viame_server/serializers/viame.py).

The development is a shallow embedding of the converter: rows are lists of
field strings, Python floats are modelled as exact rationals, Python runtime
failures (IndexError, ValueError) are an explicit error type, and the Python
dicts that the code builds row by row are insertion-ordered association
lists.  Every definition mirrors one function or statement block of the
source file; helper names not present in the source are loop bodies or
expression fragments of the function they are named after.
-/

deriving instance DecidableEq for Except

namespace Viame

/-- Typed value produced by type inference: a Python bool, float or str.
Floats are modelled as exact rationals. -/
inductive Val where
  | bool : Bool → Val
  | num : ℚ → Val
  | str : String → Val
deriving DecidableEq

/-- Python runtime errors the serializer can raise. -/
inductive PyErr where
  | indexError
  | valueError
deriving DecidableEq

/-- Python list indexing l[i], including negative-index wraparound. -/
def pyGet {α : Type} (l : List α) (i : ℤ) : Option α :=
  let j : ℤ := if i < 0 then i + l.length else i
  if 0 ≤ j then l[j.toNat]? else none

/-- Drops the pattern p from the front of l, if l starts with p. -/
def dropPre : List Char → List Char → Option (List Char)
  | [], l => some l
  | _ :: _, [] => none
  | p :: ps, c :: cs => if p = c then dropPre ps cs else none

/-- Python str.startswith. -/
def pyStartsWith (s p : String) : Bool :=
  (dropPre p.data s.data).isSome

/-- Python substring containment, the in operator on strings. -/
def containsSub (s sub : String) : Bool :=
  s.data.tails.any (fun t => (dropPre sub.data t).isSome)

/-- Maximal run of ASCII digits at the front of l, with the rest. -/
def takeDigits : List Char → List Char × List Char
  | [] => ([], [])
  | c :: rest =>
    if c.isDigit then
      let p := takeDigits rest
      (c :: p.1, p.2)
    else ([], c :: rest)

/-- Numeric value of a list of decimal digit characters. -/
def natOfDigits (l : List Char) : ℕ :=
  l.foldl (fun a c => 10 * a + (c.toNat - 48)) 0

/-- Mantissa of a Python float literal: digits with an optional dot and
fraction digits; at least one digit overall.  The value is the digit
string over a power of ten, built with mkRat so the kernel can evaluate
it. -/
def pyFloatMant (l : List Char) : Option (ℚ × List Char) :=
  let ip := takeDigits l
  match ip.2 with
  | '.' :: rest =>
    let fp := takeDigits rest
    if ip.1.isEmpty && fp.1.isEmpty then none
    else some (mkRat (natOfDigits (ip.1 ++ fp.1) : ℤ) (10 ^ fp.1.length), fp.2)
  | r => if ip.1.isEmpty then none else some (mkRat (natOfDigits ip.1 : ℤ) 1, r)

/-- Exponent part of a Python float literal, after e or E. -/
def pyExpPart (l : List Char) : Option ℤ :=
  match l with
  | '-' :: d => if !d.isEmpty && d.all Char.isDigit then some (-(natOfDigits d : ℤ)) else none
  | '+' :: d => if !d.isEmpty && d.all Char.isDigit then some ((natOfDigits d : ℤ)) else none
  | d => if !d.isEmpty && d.all Char.isDigit then some ((natOfDigits d : ℤ)) else none

/-- Scales a rational by a power of ten, for the exponent of a float
literal (kernel-evaluable spelling of multiplication by ten to the e). -/
def expShift (m : ℚ) (e : ℤ) : ℚ :=
  if 0 ≤ e then mkRat (m.num * 10 ^ e.toNat) m.den
  else mkRat m.num (m.den * 10 ^ (-e).toNat)

/-- Negation of a rational (kernel-evaluable spelling). -/
def ratNeg (q : ℚ) : ℚ :=
  mkRat (-q.num) q.den

/-- Unsigned Python float literal: mantissa with optional exponent. -/
def pyFloatChars (l : List Char) : Option ℚ :=
  match pyFloatMant l with
  | none => none
  | some (m, r) =>
    match r with
    | [] => some m
    | 'e' :: rest => (pyExpPart rest).map (expShift m)
    | 'E' :: rest => (pyExpPart rest).map (expShift m)
    | _ => none

/-- Model of Python float() on finite decimal literals, optionally signed,
with optional fraction and exponent; tokens float() rejects map to none.
Whitespace trimming, digit-group underscores, inf and nan are outside the
model (no claim involves them). -/
def pyFloat (s : String) : Option ℚ :=
  match s.data with
  | '-' :: rest => (pyFloatChars rest).map ratNeg
  | '+' :: rest => pyFloatChars rest
  | l => pyFloatChars l

/-- Model of Python int() on decimal strings. -/
def pyInt (s : String) : Option ℤ :=
  match s.data with
  | '-' :: d => if !d.isEmpty && d.all Char.isDigit then some (-(natOfDigits d : ℤ)) else none
  | '+' :: d => if !d.isEmpty && d.all Char.isDigit then some ((natOfDigits d : ℤ)) else none
  | d => if !d.isEmpty && d.all Char.isDigit then some ((natOfDigits d : ℤ)) else none

/-- Decimal digit characters of n, most significant first (fuel-driven so
that the kernel can evaluate it). -/
def natDigitsAux : ℕ → ℕ → List Char
  | 0, _ => []
  | _ + 1, 0 => []
  | fuel + 1, n => natDigitsAux fuel (n / 10) ++ [Char.ofNat (48 + n % 10)]

/-- Python str() of a natural number. -/
def natStr (n : ℕ) : String :=
  if n = 0 then "0" else String.mk (natDigitsAux (n + 1) n)

/-- Exactly k decimal digits of n, left-padded with zeros. -/
def natStrPad (k : ℕ) (n : ℕ) : String :=
  String.mk (List.replicate (k - (natDigitsAux (n + 1) n).length) '0' ++ natDigitsAux (n + 1) n)

/-- Python str() of an int. -/
def strOfInt (i : ℤ) : String :=
  if i < 0 then "-" ++ natStr i.natAbs else natStr i.natAbs

/-- Model of Python str() on floats whose value has a finite decimal
expansion: the shortest decimal digit string, with at least one fractional
digit, which is what repr produces for such floats outside the scientific
range.  Rationals with no finite decimal expansion (which no float has)
fall back to a fraction spelling. -/
def printPyFloat (q : ℚ) : String :=
  let sgn := if q.num < 0 then "-" else ""
  match (List.range (q.den + 1)).find? (fun k => 10 ^ k % q.den = 0) with
  | some k =>
    let n : ℕ := q.num.natAbs * 10 ^ k / q.den
    sgn ++ natStr (n / 10 ^ k) ++ "." ++ (if k = 0 then "0" else natStrPad k (n % 10 ^ k))
  | none => sgn ++ natStr q.num.natAbs ++ "/" ++ natStr q.den

/-- Translation of _deduceType: the literal true, the literal false, a float
parse, and fallback to the original string, in that order.  Total by
construction, mirroring that the Python function catches ValueError. -/
def _deduceType (value : String) : Val :=
  if value = "true" then Val.bool true
  else if value = "false" then Val.bool false
  else
    match pyFloat value with
    | some number => Val.num number
    | none => Val.str value

/-- Insertion-ordered dict write: overwrite in place, or append at the end,
as a Python dict assignment does. -/
def dictSet {κ α : Type} [DecidableEq κ] : List (κ × α) → κ → α → List (κ × α)
  | [], k, v => [(k, v)]
  | (k', v') :: rest, k, v =>
    if k' = k then (k, v) :: rest else (k', v') :: dictSet rest k v

/-- Dict lookup. -/
def dictGet {κ α : Type} [DecidableEq κ] : List (κ × α) → κ → Option α
  | [], _ => none
  | (k', v') :: rest, k => if k' = k then some v' else dictGet rest k

/-- Translation of the Feature dataclass.  Keypoint components hold the
values the code actually stores there (regex capture strings arrive as
Val.str, JSON floats as Val.num). -/
structure Feature where
  frame : ℤ
  bounds : List ℚ
  head : Option (Val × Val) := none
  tail : Option (Val × Val) := none
  fishLength : Option ℚ := none
  attributes : Option (List (String × Val)) := none
deriving DecidableEq

/-- Translation of the Track dataclass. -/
structure Track where
  begin : ℤ
  «end» : ℤ
  trackId : ℤ
  features : List Feature := []
  confidencePairs : List (String × ℚ) := []
  attributes : List (String × Val) := []
deriving DecidableEq

/-- Per-row result of the tag scan in _parse_row: the features dict (head
and tail keypoints), the detection attributes and the track attributes. -/
structure RowTags where
  head : Option (Val × Val) := none
  tail : Option (Val × Val) := none
  attributes : List (String × Val) := []
  track_attributes : List (String × Val) := []
deriving DecidableEq

/-- Decidable equality for the quadruple a parsed row decodes to; spelled
out because instance search stops one product too early on its own. -/
instance : DecidableEq (Feature × List (String × Val) × List (String × Val) × List (String × ℚ)) :=
  instDecidableEqProd

/-- Decidable equality for the quadruple row_info returns. -/
instance : DecidableEq (ℤ × ℤ × List ℚ × ℚ) :=
  instDecidableEqProd

/-- Splits at the last space that still has at least one character after
it, which is how the greedy two-group pattern group-space-group matches
(re.match anchors at the start only, so a trailing remainder is fine). -/
def splitLastSpace : List Char → Option (List Char × List Char)
  | [] => none
  | c :: rest =>
    match splitLastSpace rest with
    | some p => some (c :: p.1, p.2)
    | none => if c = ' ' && !rest.isEmpty then some ([], rest) else none

/-- Model of re.match of a literal tag followed by two one-or-more
character groups separated by a space, the first group greedy: the two
capture strings. -/
def matchTwoAfter (tag : String) (s : String) : Option (String × String) :=
  match dropPre tag.data s.data with
  | none => none
  | some rest =>
    match splitLastSpace rest with
    | some p => if p.1.isEmpty then none else some (String.mk p.1, String.mk p.2)
    | none => none

/-- Two space-separated digit runs, as the keypoint pattern captures
them (a trailing remainder is allowed, re.match being anchored at the
start only). -/
def matchKpDigits (l : List Char) : Option (String × String) :=
  let d1 := takeDigits l
  if d1.1.isEmpty then none
  else
    match d1.2 with
    | ' ' :: r2 =>
      let d2 := takeDigits r2
      if d2.1.isEmpty then none else some (String.mk d1.1, String.mk d2.1)
    | _ => none

/-- Model of re.match of the kp head pattern. -/
def matchKpHead (s : String) : Option (String × String) :=
  match dropPre "(kp) head ".data s.data with
  | none => none
  | some rest => matchKpDigits rest

/-- Model of re.match of the kp tail pattern. -/
def matchKpTail (s : String) : Option (String × String) :=
  match dropPre "(kp) tail ".data s.data with
  | none => none
  | some rest => matchKpDigits rest

/-- One iteration of the tag-scan loop body of _parse_row on a field s:
the kp branch (head, else tail), the atr branch and the trk-atr branch,
each checked independently, captures stored as the code stores them. -/
def tagStep (st : RowTags) (s : String) : RowTags :=
  let st1 :=
    if pyStartsWith s "(kp)" then
      if containsSub s "head" then
        match matchKpHead s with
        | some g => { st with head := some (Val.str g.1, Val.str g.2) }
        | none => st
      else if containsSub s "tail" then
        match matchKpTail s with
        | some g => { st with tail := some (Val.str g.1, Val.str g.2) }
        | none => st
      else st
    else st
  let st2 :=
    if pyStartsWith s "(atr)" then
      match matchTwoAfter "(atr) " s with
      | some g => { st1 with attributes := dictSet st1.attributes g.1 (_deduceType g.2) }
      | none => st1
    else st1
  if pyStartsWith s "(trk-atr)" then
    match matchTwoAfter "(trk-atr) " s with
    | some g => { st2 with track_attributes := dictSet st2.track_attributes g.1 (_deduceType g.2) }
    | none => st2
  else st2

/-- Python range(a, b) over integers, step 1. -/
def intRange (a b : ℤ) : List ℤ :=
  (List.range (b - a).toNat).map (fun k => a + (k : ℤ))

/-- Start index of the tag scan in _parse_row: the last field index when
the row length is even, the second-to-last when it is odd. -/
def tagStart (n : ℕ) : ℤ :=
  if n % 2 = 0 then (n : ℤ) - 1 else (n : ℤ) - 2

/-- The tag-scan loop of _parse_row over the given index window. -/
def tagGo (row : List String) : List ℤ → RowTags → Except PyErr RowTags
  | [], st => .ok st
  | j :: rest, st =>
    match pyGet row j with
    | none => .error .indexError
    | some s => tagGo row rest (tagStep st s)

/-- Tag scan of _parse_row: the window is the last field (even length) or
the last two fields (odd length). -/
def tagScan (row : List String) : Except PyErr RowTags :=
  tagGo row (intRange (tagStart row.length) row.length) {}

/-- Index positions of the confidence-pair scan: 9, 11, ... below n,
Python range(9, n, 2). -/
def confIdxs (n : ℕ) : List ℕ :=
  (List.range n).filter (fun i => decide (9 ≤ i) && decide (i % 2 = 1))

/-- The confidence-pair comprehension of _parse_row, walked in index
order; the first Python exception wins. -/
def confGo (row : List String) : List ℕ → Except PyErr (List (String × ℚ))
  | [] => .ok []
  | i :: rest =>
    match row[i]? with
    | none => .error .indexError
    | some lab =>
      if pyStartsWith lab "(" then confGo row rest
      else
        match row[i + 1]? with
        | none => .error .indexError
        | some s =>
          match pyFloat s with
          | none => .error .valueError
          | some q =>
            match confGo row rest with
            | .error e => .error e
            | .ok l => .ok ((lab, q) :: l)

/-- Confidence-pair scan of _parse_row. -/
def confScan (row : List String) : Except PyErr (List (String × ℚ)) :=
  confGo row (confIdxs row.length)

/-- Translation of _parse_row: the confidence-pair comprehension runs
first, then the tag scan. -/
def _parse_row (row : List String) : Except PyErr (RowTags × List (String × ℚ)) :=
  match confScan row with
  | .error e => .error e
  | .ok confidence_pairs =>
    match tagScan row with
    | .error e => .error e
    | .ok tags => .ok (tags, confidence_pairs)

/-- Python int(row[i]). -/
def getInt (row : List String) (i : ℕ) : Except PyErr ℤ :=
  match row[i]? with
  | none => .error .indexError
  | some s =>
    match pyInt s with
    | none => .error .valueError
    | some n => .ok n

/-- Python float(row[i]). -/
def getFloat (row : List String) (i : ℕ) : Except PyErr ℚ :=
  match row[i]? with
  | none => .error .indexError
  | some s =>
    match pyFloat s with
    | none => .error .valueError
    | some q => .ok q

/-- Floats of a list of fields, first failure wins. -/
def floatsOf : List String → Except PyErr (List ℚ)
  | [] => .ok []
  | s :: rest =>
    match pyFloat s with
    | none => .error .valueError
    | some q =>
      match floatsOf rest with
      | .error e => .error e
      | .ok qs => .ok (q :: qs)

/-- Translation of row_info: the fixed-position fields; the bounds slice
row[3:7] silently shortens when the row is short, as a Python slice does. -/
def row_info (row : List String) : Except PyErr (ℤ × ℤ × List ℚ × ℚ) :=
  match getInt row 0 with
  | .error e => .error e
  | .ok trackId =>
    match getInt row 2 with
    | .error e => .error e
    | .ok frame =>
      match floatsOf ((row.drop 3).take 4) with
      | .error e => .error e
      | .ok bounds =>
        match getFloat row 8 with
        | .error e => .error e
        | .ok fish_length => .ok (trackId, frame, bounds, fish_length)

/-- The Feature constructor call of _parse_row_for_tracks: an empty
attribute dict becomes an absent one, a non-positive length an absent
length (a rational is positive exactly when its numerator is). -/
def featureOf (tags : RowTags) (frame : ℤ) (bounds : List ℚ) (fishLength : ℚ) : Feature :=
  { frame := frame
    bounds := bounds
    head := tags.head
    tail := tags.tail
    fishLength := if 0 < fishLength.num then some fishLength else none
    attributes := if tags.attributes.isEmpty then none else some tags.attributes }

/-- Translation of _parse_row_for_tracks: builds the Feature from the
fixed fields and the tag-scan results. -/
def _parse_row_for_tracks (row : List String) :
    Except PyErr (Feature × List (String × Val) × List (String × Val) × List (String × ℚ)) :=
  match _parse_row row with
  | .error e => .error e
  | .ok (tags, confidence_pairs) =>
    match row_info row with
    | .error e => .error e
    | .ok (_trackId, frame, bounds, fishLength) =>
      .ok (featureOf tags frame bounds fishLength,
           tags.attributes, tags.track_attributes, confidence_pairs)

/-- The track-attribute merge loop of load_csv_as_tracks.  Iterating the
Python dict yields its keys only; unpacking a key string into the loop's
name/value pair succeeds exactly when the key has two characters, which
then become two one-character strings; any other key length raises
ValueError. -/
def mergeTrackAttrs (t : Track) : List (String × Val) → Except PyErr Track
  | [] => .ok t
  | kv :: rest =>
    match kv.1.data with
    | [c1, c2] =>
      mergeTrackAttrs
        { t with attributes := dictSet t.attributes (String.mk [c1]) (Val.str (String.mk [c2])) }
        rest
    | _ => .error .valueError

/-- The track the row loop of load_csv_as_tracks works on: the existing
one, or a fresh Track whose frame range starts at this row's frame. -/
def trackFor (tracks : List (ℤ × Track)) (trackId frame : ℤ) : Track :=
  match dictGet tracks trackId with
  | some t => t
  | none => { begin := frame, «end» := frame, trackId := trackId }

/-- Python min of two ints (the first argument on ties). -/
def pyMin (a b : ℤ) : ℤ :=
  if a ≤ b then a else b

/-- Python max of two ints (the first argument on ties). -/
def pyMax (a b : ℤ) : ℤ :=
  if b ≤ a then a else b

/-- The per-row track update of load_csv_as_tracks: extend the frame
range, append the feature, replace the confidence pairs wholesale. -/
def updateTrack (t0 : Track) (frame : ℤ) (feature : Feature) (cps : List (String × ℚ)) : Track :=
  { t0 with
    begin := pyMin frame t0.begin
    «end» := pyMax t0.«end» frame
    features := t0.features ++ [feature]
    confidencePairs := cps }

/-- One iteration of the row loop of load_csv_as_tracks. -/
def processRow (tracks : List (ℤ × Track)) (row : List String) :
    Except PyErr (List (ℤ × Track)) :=
  match _parse_row_for_tracks row with
  | .error e => .error e
  | .ok (feature, _attributes, track_attributes, confidence_pairs) =>
    match row_info row with
    | .error e => .error e
    | .ok (trackId, frame, _, _) =>
      match mergeTrackAttrs (updateTrack (trackFor tracks trackId frame) frame feature confidence_pairs) track_attributes with
      | .error e => .error e
      | .ok t2 => .ok (dictSet tracks trackId t2)

/-- The row loop of load_csv_as_tracks. -/
def loadRows : List (ℤ × Track) → List (List String) → Except PyErr (List (ℤ × Track))
  | tracks, [] => .ok tracks
  | tracks, row :: rest =>
    match processRow tracks row with
    | .error e => .error e
    | .ok tracks1 => loadRows tracks1 rest

/-- Translation of load_csv_as_tracks on already-split rows.  The final
asdict conversion is a representation change and is not modelled; the
result is the insertion-ordered trackId-to-Track mapping itself. -/
def load_csv_as_tracks (rows : List (List String)) : Except PyErr (List (ℤ × Track)) :=
  loadRows [] rows

/-- Splitting a character list at a separator, Python str.split. -/
def splitOnChar (sep : Char) : List Char → List (List Char)
  | [] => [[]]
  | c :: rest =>
    let r := splitOnChar sep rest
    if c = sep then [] :: r
    else
      match r with
      | [] => [[c]]
      | h :: t => (c :: h) :: t

/-- Line filtering and field splitting of load_csv_as_tracks: split the
text on newlines, drop comment and blank lines, split each line on commas
(csv.reader restricted to quote-free lines, which all claim inputs are). -/
def csvRows (text : String) : List (List String) :=
  (((splitOnChar '\n' text.data).map String.mk).filter
      (fun r => !(pyStartsWith r "#") && !(r.data.isEmpty))).map
    (fun r => (splitOnChar ',' r.data).map String.mk)

/-- Whole import pipeline on the decoded file text. -/
def loadCsvText (text : String) : Except PyErr (List (ℤ × Track)) :=
  load_csv_as_tracks (csvRows text)

/-- Translation of valueToString in write_track_to_csv. -/
def valueToString (v : Val) : String :=
  match v with
  | .bool true => "true"
  | .bool false => "false"
  | .num q => printPyFloat q
  | .str s => s

/-- Python str() on a typed value, as f-string interpolation applies it. -/
def pyStr (v : Val) : String :=
  match v with
  | .bool true => "True"
  | .bool false => "False"
  | .num q => printPyFloat q
  | .str s => s

/-- The ninth column of an exported row: Python feature.fishLength or -1,
where both None and a zero float are falsy and give the int -1. -/
def flCol (f : Feature) : String :=
  match f.fishLength with
  | some q => if q = 0 then "-1" else printPyFloat q
  | none => "-1"

/-- Flattened confidence-pair columns: label, score, label, score, ... -/
def confCols : List (String × ℚ) → List String
  | [] => []
  | p :: rest => p.1 :: printPyFloat p.2 :: confCols rest

/-- Keypoint columns, emitted only when both head and tail are present. -/
def kpCols (f : Feature) : List String :=
  match f.head, f.tail with
  | some h, some t =>
    ["(kp) head " ++ pyStr h.1 ++ " " ++ pyStr h.2,
     "(kp) tail " ++ pyStr t.1 ++ " " ++ pyStr t.2]
  | _, _ => []

/-- One tagged attribute column per dict entry, in insertion order. -/
def attrLines (tag : String) : List (String × Val) → List String
  | [] => []
  | kv :: rest => (tag ++ kv.1 ++ " " ++ valueToString kv.2) :: attrLines tag rest

/-- Detection-attribute columns; a falsy (absent or empty) dict emits
nothing. -/
def atrCols (f : Feature) : List String :=
  match f.attributes with
  | some l => if l.isEmpty then [] else attrLines "(atr) " l
  | none => []

/-- Track-attribute columns; a falsy (empty) dict emits nothing. -/
def trkAtrCols (t : Track) : List String :=
  if t.attributes.isEmpty then [] else attrLines "(trk-atr) " t.attributes

/-- One emitted row of write_track_to_csv for one feature: reading the
last confidence pair raises IndexError on an empty pair list; otherwise
the fixed prefix, then pairs, keypoints, detection attributes and track
attributes, each cell stringified the way csv.writer does. -/
def featureRow (t : Track) (f : Feature) : Except PyErr (List String) :=
  match t.confidencePairs.getLast? with
  | none => .error .indexError
  | some p =>
    .ok ([strOfInt t.trackId, "", strOfInt f.frame]
      ++ f.bounds.map printPyFloat
      ++ [printPyFloat p.2, flCol f]
      ++ confCols t.confidencePairs
      ++ kpCols f ++ atrCols f ++ trkAtrCols t)

/-- The feature loop of write_track_to_csv. -/
def writeRows (t : Track) : List Feature → Except PyErr (List (List String))
  | [] => .ok []
  | f :: rest =>
    match featureRow t f with
    | .error e => .error e
    | .ok r =>
      match writeRows t rest with
      | .error e => .error e
      | .ok rs => .ok (r :: rs)

/-- Translation of write_track_to_csv: the emitted rows as lists of cell
strings. -/
def write_track_to_csv (t : Track) : Except PyErr (List (List String)) :=
  writeRows t t.features

/-- Track id a row names: int(row[0]), used to state claims about rows
that share one track id. -/
def rowTid (row : List String) : Option ℤ :=
  row[0]?.bind pyInt

/-! ## Dictionary lemmas -/

theorem dictGet_dictSet_self {κ α : Type} [DecidableEq κ] (m : List (κ × α)) (k : κ) (v : α) :
    dictGet (dictSet m k v) k = some v := by
  induction m with
  | nil => simp [dictSet, dictGet]
  | cons kv rest ih =>
    obtain ⟨k', v'⟩ := kv
    by_cases h : k' = k <;> simp [dictSet, dictGet, h, ih]

theorem mem_dictSet {κ α : Type} [DecidableEq κ] (m : List (κ × α)) (k : κ) (v : α)
    (p : κ × α) (hp : p ∈ dictSet m k v) : p = (k, v) ∨ p ∈ m := by
  induction m with
  | nil => simpa [dictSet] using hp
  | cons kv rest ih =>
    obtain ⟨k', v'⟩ := kv
    by_cases h : k' = k
    · simp [dictSet, h] at hp
      rcases hp with hp | hp
      · exact Or.inl (by simp [hp])
      · exact Or.inr (List.mem_cons_of_mem _ hp)
    · simp [dictSet, h] at hp
      rcases hp with hp | hp
      · exact Or.inr (by simp [hp])
      · rcases ih hp with hh | hh
        · exact Or.inl hh
        · exact Or.inr (List.mem_cons_of_mem _ hh)

theorem dictGet_mem {κ α : Type} [DecidableEq κ] (m : List (κ × α)) (k : κ) (v : α)
    (h : dictGet m k = some v) : (k, v) ∈ m := by
  induction m with
  | nil => simp [dictGet] at h
  | cons kv rest ih =>
    obtain ⟨k', v'⟩ := kv
    by_cases hk : k' = k
    · subst hk
      simp [dictGet] at h
      simp [h]
    · simp [dictGet, hk] at h
      exact List.mem_cons_of_mem _ (ih h)

/-! ## Inversion lemmas for the parsing pipeline -/

theorem getInt_ok (row : List String) (i : ℕ) (n : ℤ) (h : getInt row i = .ok n) :
    ∃ s, row[i]? = some s ∧ pyInt s = some n := by
  rcases hg : row[i]? with _ | s
  · simp [getInt, hg] at h
  · rcases hp : pyInt s with _ | m
    · simp [getInt, hg, hp] at h
    · simp [getInt, hg, hp] at h
      exact ⟨s, rfl, by rw [hp, h]⟩

theorem getFloat_ok (row : List String) (i : ℕ) (q : ℚ) (h : getFloat row i = .ok q) :
    ∃ s, row[i]? = some s ∧ pyFloat s = some q := by
  rcases hg : row[i]? with _ | s
  · simp [getFloat, hg] at h
  · rcases hp : pyFloat s with _ | m
    · simp [getFloat, hg, hp] at h
    · simp [getFloat, hg, hp] at h
      exact ⟨s, rfl, by rw [hp, h]⟩

theorem row_info_ok (row : List String) (tid frame : ℤ) (bounds : List ℚ) (fl : ℚ)
    (h : row_info row = .ok (tid, frame, bounds, fl)) :
    getInt row 0 = .ok tid ∧ getInt row 2 = .ok frame ∧
      floatsOf ((row.drop 3).take 4) = .ok bounds ∧ getFloat row 8 = .ok fl := by
  rcases h0 : getInt row 0 with e0 | tid'
  · simp [row_info, h0] at h
  rcases h2 : getInt row 2 with e2 | frame'
  · simp [row_info, h0, h2] at h
  rcases hb : floatsOf ((row.drop 3).take 4) with eb | bounds'
  · simp [row_info, h0, h2, hb] at h
  rcases h8 : getFloat row 8 with e8 | fl'
  · simp [row_info, h0, h2, hb, h8] at h
  simp [row_info, h0, h2, hb, h8] at h
  obtain ⟨rfl, rfl, rfl, rfl⟩ := h
  exact ⟨rfl, rfl, rfl, rfl⟩

theorem parse_row_ok (row : List String) (tags : RowTags) (cps : List (String × ℚ))
    (h : _parse_row row = .ok (tags, cps)) :
    confScan row = .ok cps ∧ tagScan row = .ok tags := by
  rcases hc : confScan row with e | cps'
  · simp [_parse_row, hc] at h
  rcases ht : tagScan row with e | tags'
  · simp [_parse_row, hc, ht] at h
  simp [_parse_row, hc, ht] at h
  obtain ⟨rfl, rfl⟩ := h
  exact ⟨rfl, rfl⟩

theorem parse_row_for_tracks_ok (row : List String) (f : Feature)
    (a ta : List (String × Val)) (cps : List (String × ℚ))
    (h : _parse_row_for_tracks row = .ok (f, a, ta, cps)) :
    ∃ tags tid frame bounds fl,
      _parse_row row = .ok (tags, cps) ∧ row_info row = .ok (tid, frame, bounds, fl) ∧
      a = tags.attributes ∧ ta = tags.track_attributes ∧
      f = featureOf tags frame bounds fl := by
  rcases hp : _parse_row row with e | pr
  · simp [_parse_row_for_tracks, hp] at h
  obtain ⟨tags, cps'⟩ := pr
  rcases hi : row_info row with e | info
  · simp [_parse_row_for_tracks, hp, hi] at h
  obtain ⟨tid, frame, bounds, fl⟩ := info
  simp [_parse_row_for_tracks, hp, hi] at h
  obtain ⟨hf, ha, hta, hcps⟩ := h
  subst hf
  subst ha
  subst hta
  subst hcps
  exact ⟨tags, tid, frame, bounds, fl, rfl, rfl, rfl, rfl, rfl⟩

theorem processRow_ok (st : List (ℤ × Track)) (row : List String) (st' : List (ℤ × Track))
    (h : processRow st row = .ok st') :
    ∃ f a ta cps tid frame bounds fl t2,
      _parse_row_for_tracks row = .ok (f, a, ta, cps) ∧
      row_info row = .ok (tid, frame, bounds, fl) ∧
      mergeTrackAttrs (updateTrack (trackFor st tid frame) frame f cps) ta = .ok t2 ∧
      st' = dictSet st tid t2 := by
  rcases hp : _parse_row_for_tracks row with e | q
  · simp [processRow, hp] at h
  obtain ⟨f, a, ta, cps⟩ := q
  rcases hi : row_info row with e | info
  · simp [processRow, hp, hi] at h
  obtain ⟨tid, frame, b, fl⟩ := info
  rcases hm : mergeTrackAttrs (updateTrack (trackFor st tid frame) frame f cps) ta with e | t2
  · simp [processRow, hp, hi, hm] at h
  simp [processRow, hp, hi, hm] at h
  subst h
  exact ⟨f, a, ta, cps, tid, frame, b, fl, t2, rfl, rfl, hm, rfl⟩

/-! ## Lemmas about the track-attribute merge loop -/

theorem mergeTrackAttrs_ok (l : List (String × Val)) (t t' : Track)
    (h : mergeTrackAttrs t l = .ok t') :
    t'.begin = t.begin ∧ t'.«end» = t.«end» ∧ t'.trackId = t.trackId ∧
      t'.features = t.features ∧ t'.confidencePairs = t.confidencePairs := by
  induction l generalizing t with
  | nil =>
    simp [mergeTrackAttrs] at h
    subst h
    exact ⟨rfl, rfl, rfl, rfl, rfl⟩
  | cons kv rest ih =>
    rcases hd : kv.1.data with _ | ⟨c1, _ | ⟨c2, _ | ⟨c3, cs⟩⟩⟩ <;>
      simp [mergeTrackAttrs, hd] at h
    obtain ⟨h1, h2, h3, h4, h5⟩ := ih _ h
    exact ⟨h1, h2, h3, h4, h5⟩

theorem mergeTrackAttrs_total (l : List (String × Val)) (t : Track)
    (hl : ∀ kv ∈ l, ∃ c1 c2, kv.1.data = [c1, c2]) :
    ∃ t', mergeTrackAttrs t l = .ok t' := by
  induction l generalizing t with
  | nil => exact ⟨t, rfl⟩
  | cons kv rest ih =>
    obtain ⟨c1, c2, hd⟩ := hl kv (List.mem_cons_self _ _)
    obtain ⟨t', ht'⟩ :=
      ih { t with attributes := dictSet t.attributes (String.mk [c1]) (Val.str (String.mk [c2])) }
        (fun p hp => hl p (List.mem_cons_of_mem _ hp))
    exact ⟨t', by simp [mergeTrackAttrs, hd]; exact ht'⟩

/-! ## Order lemmas for the per-row frame-range update -/

theorem pyMin_eq (a b : ℤ) : pyMin a b = min a b := by
  rw [pyMin, min_def]

theorem pyMax_eq (a b : ℤ) : pyMax a b = max a b := by
  rw [pyMax, max_def]
  split_ifs <;> omega

theorem foldl_min_le_init (l : List ℤ) (a : ℤ) : l.foldl min a ≤ a := by
  induction l generalizing a with
  | nil => exact le_rfl
  | cons x xs ih => exact le_trans (ih (min a x)) (min_le_left a x)

theorem init_le_foldl_max (l : List ℤ) (a : ℤ) : a ≤ l.foldl max a := by
  induction l generalizing a with
  | nil => exact le_rfl
  | cons x xs ih => exact le_trans (le_max_left a x) (ih (max a x))

theorem foldl_min_append (l : List ℤ) (a x : ℤ) :
    (l ++ [x]).foldl min a = min (l.foldl min a) x := by
  rw [List.foldl_append]
  rfl

theorem foldl_max_append (l : List ℤ) (a x : ℤ) :
    (l ++ [x]).foldl max a = max (l.foldl max a) x := by
  rw [List.foldl_append]
  rfl

/-! ## The confidence pairs a row leaves on its track -/

theorem processRow_cps (st st' : List (ℤ × Track)) (row : List String) (tid : ℤ)
    (h : processRow st row = .ok st') (htid : rowTid row = some tid) :
    ∃ t ps, dictGet st' tid = some t ∧ confScan row = .ok ps ∧ t.confidencePairs = ps := by
  obtain ⟨f, a, ta, cps, tid', frame, b, fl, t2, hp, hi, hm, hst⟩ := processRow_ok st row st' h
  obtain ⟨hg0, _, _, _⟩ := row_info_ok row tid' frame b fl hi
  obtain ⟨s, hs, hpi⟩ := getInt_ok row 0 tid' hg0
  have htid' : rowTid row = some tid' := by simp [rowTid, hs, hpi]
  rw [htid] at htid'
  injection htid' with htid2
  subst htid2
  obtain ⟨tags, tid2, frame2, b2, fl2, hpr, hi2, _, _, _⟩ :=
    parse_row_for_tracks_ok row f a ta cps hp
  obtain ⟨hconf, _⟩ := parse_row_ok row tags cps hpr
  have hcp := (mergeTrackAttrs_ok ta _ t2 hm).2.2.2.2
  refine ⟨t2, cps, ?_, hconf, ?_⟩
  · rw [hst]
    exact dictGet_dictSet_self st _ t2
  · rw [hcp]
    rfl

theorem loadRows_last_cps (rows : List (List String)) :
    ∀ (st tracks : List (ℤ × Track)) (tid : ℤ) (hne : rows ≠ []),
      (∀ r ∈ rows, rowTid r = some tid) → loadRows st rows = .ok tracks →
      ∃ t ps, dictGet tracks tid = some t ∧ confScan (rows.getLast hne) = .ok ps ∧
        t.confidencePairs = ps := by
  induction rows with
  | nil => intro st tracks tid hne; exact absurd rfl hne
  | cons r rest ih =>
    intro st tracks tid hne hall h
    rw [loadRows] at h
    rcases hpr : processRow st r with e | st1 <;> rw [hpr] at h
    · simp at h
    by_cases hrest : rest = []
    · subst hrest
      simp [loadRows] at h
      have hc := processRow_cps st st1 r tid hpr (hall r (by simp))
      rw [← h]
      simpa [List.getLast] using hc
    · have hall2 : ∀ x ∈ rest, rowTid x = some tid :=
        fun x hx => hall x (List.mem_cons_of_mem _ hx)
      have := ih st1 tracks tid hrest hall2 h
      rw [List.getLast_cons hrest]
      exact this

/-! ## The frame-range invariant of aggregation -/

theorem processRow_frames (st st' : List (ℤ × Track)) (row : List String)
    (hinv : ∀ p ∈ st, ∃ f0 fs, p.2.features.map Feature.frame = f0 :: fs ∧
        p.2.begin = fs.foldl min f0 ∧ p.2.«end» = fs.foldl max f0)
    (h : processRow st row = .ok st') :
    ∀ p ∈ st', ∃ f0 fs, p.2.features.map Feature.frame = f0 :: fs ∧
        p.2.begin = fs.foldl min f0 ∧ p.2.«end» = fs.foldl max f0 := by
  obtain ⟨f, a, ta, cps, tid, frame, b, fl, t2, hp, hi, hm, hst⟩ := processRow_ok st row st' h
  obtain ⟨tags, tid2, frame2, b2, fl2, hpr, hi2, _, _, hf⟩ :=
    parse_row_for_tracks_ok row f a ta cps hp
  rw [hi2] at hi
  injection hi with hi
  simp only [Prod.mk.injEq] at hi
  obtain ⟨rfl, rfl, rfl, rfl⟩ := hi
  have hffr : f.frame = frame2 := by rw [hf]; rfl
  obtain ⟨hb2, he2, _, hfe2, _⟩ := mergeTrackAttrs_ok ta _ t2 hm
  simp only [updateTrack] at hb2 he2 hfe2
  intro p hpmem
  rw [hst] at hpmem
  rcases mem_dictSet st tid2 t2 p hpmem with rfl | hin
  · rcases hg : dictGet st tid2 with _ | t0
    · have ht0 : trackFor st tid2 frame2 = { begin := frame2, «end» := frame2, trackId := tid2 } := by
        rw [trackFor, hg]
      rw [ht0] at hb2 he2 hfe2
      refine ⟨frame2, [], ?_, ?_, ?_⟩
      · simp [hfe2, hffr]
      · simpa [pyMin] using hb2
      · simpa [pyMax] using he2
    · obtain ⟨f0, fs, hmap, hbeg, hend⟩ := hinv (tid2, t0) (dictGet_mem st tid2 t0 hg)
      have ht0 : trackFor st tid2 frame2 = t0 := by rw [trackFor, hg]
      rw [ht0] at hb2 he2 hfe2
      refine ⟨f0, fs ++ [frame2], ?_, ?_, ?_⟩
      · rw [hfe2, List.map_append, hmap]
        simp [hffr]
      · rw [hb2, pyMin_eq, foldl_min_append, ← hbeg, min_comm]
      · rw [he2, pyMax_eq, foldl_max_append, ← hend]
  · exact hinv p hin

theorem loadRows_frames (rows : List (List String)) :
    ∀ (st tracks : List (ℤ × Track)),
      (∀ p ∈ st, ∃ f0 fs, p.2.features.map Feature.frame = f0 :: fs ∧
          p.2.begin = fs.foldl min f0 ∧ p.2.«end» = fs.foldl max f0) →
      loadRows st rows = .ok tracks →
      ∀ p ∈ tracks, ∃ f0 fs, p.2.features.map Feature.frame = f0 :: fs ∧
          p.2.begin = fs.foldl min f0 ∧ p.2.«end» = fs.foldl max f0 := by
  induction rows with
  | nil =>
    intro st tracks hinv h
    simp [loadRows] at h
    subst h
    exact hinv
  | cons r rest ih =>
    intro st tracks hinv h
    rw [loadRows] at h
    rcases hpr : processRow st r with e | st1 <;> rw [hpr] at h
    · simp at h
    exact ih st1 tracks (processRow_frames st st1 r hinv hpr) h

/-! ## Failure of the confidence-pair scan on even-length rows -/

theorem confGo_not_ok (row : List String) (idxs : List ℕ) (i : ℕ) (s : String)
    (hmem : i ∈ idxs) (hlen : row.length ≤ i + 1)
    (hs : row[i]? = some s) (hpar : pyStartsWith s "(" = false) :
    ∃ e, confGo row idxs = .error e := by
  induction idxs with
  | nil => simp at hmem
  | cons j rest ih =>
    rcases hg : row[j]? with _ | lab
    · exact ⟨.indexError, by simp [confGo, hg]⟩
    by_cases hpl : pyStartsWith lab "(" = true
    · rcases List.mem_cons.mp hmem with rfl | hmem2
      · rw [hg] at hs
        injection hs with hs
        rw [hs] at hpl
        rw [hpl] at hpar
        exact absurd hpar (by simp)
      · obtain ⟨e, he⟩ := ih hmem2
        exact ⟨e, by simp [confGo, hg, hpl, he]⟩
    · have hpl' : pyStartsWith lab "(" = false := by simpa using hpl
      rcases List.mem_cons.mp hmem with rfl | hmem2
      · have hnone : row[i + 1]? = none := List.getElem?_eq_none hlen
        exact ⟨.indexError, by simp [confGo, hg, hpl', hnone]⟩
      · rcases hg2 : row[j + 1]? with _ | s2
        · exact ⟨.indexError, by simp [confGo, hg, hpl', hg2]⟩
        rcases hq : pyFloat s2 with _ | q
        · exact ⟨.valueError, by simp [confGo, hg, hpl', hg2, hq]⟩
        obtain ⟨e, he⟩ := ih hmem2
        exact ⟨e, by simp [confGo, hg, hpl', hg2, hq, he]⟩

theorem confGo_idx_err (row : List String) (idxs : List ℕ) (s : String)
    (hn : 1 ≤ row.length)
    (hmem : row.length - 1 ∈ idxs)
    (hlt : ∀ j ∈ idxs, j < row.length)
    (hs : row[row.length - 1]? = some s) (hpar : pyStartsWith s "(" = false)
    (hok : ∀ j ∈ idxs, j + 1 < row.length →
      ∀ lb, row[j]? = some lb → pyStartsWith lb "(" = false →
        ∃ q s2, row[j + 1]? = some s2 ∧ pyFloat s2 = some q) :
    confGo row idxs = .error .indexError := by
  induction idxs with
  | nil => simp at hmem
  | cons j rest ih =>
    have hjlt := hlt j (by simp)
    rcases hg : row[j]? with _ | lab
    · simp [confGo, hg]
    have hlt2 : ∀ x ∈ rest, x < row.length := fun x hx => hlt x (List.mem_cons_of_mem _ hx)
    have hok2 : ∀ x ∈ rest, x + 1 < row.length →
        ∀ lb, row[x]? = some lb → pyStartsWith lb "(" = false →
          ∃ q s2, row[x + 1]? = some s2 ∧ pyFloat s2 = some q :=
      fun x hx => hok x (List.mem_cons_of_mem _ hx)
    by_cases hj : j = row.length - 1
    · subst hj
      rw [hs] at hg
      injection hg with hg
      have hnone : row[row.length - 1 + 1]? = none := List.getElem?_eq_none (by omega)
      simp [confGo, hs, hpar, hnone]
    · have hmem2 : row.length - 1 ∈ rest := by
        rcases List.mem_cons.mp hmem with hh | hh
        · exact absurd hh.symm hj
        · exact hh
      have hrec := ih hmem2 hlt2 hok2
      by_cases hpl : pyStartsWith lab "(" = true
      · simp [confGo, hg, hpl, hrec]
      · have hpl' : pyStartsWith lab "(" = false := by simpa using hpl
        obtain ⟨q, s2, hg2, hq⟩ := hok j (by simp) (by omega) lab hg hpl'
        simp [confGo, hg, hpl', hg2, hq, hrec]

theorem lastIdx_mem_confIdxs (n : ℕ) (he : n % 2 = 0) (hn : 10 ≤ n) : n - 1 ∈ confIdxs n := by
  simp only [confIdxs, List.mem_filter, List.mem_range, Bool.and_eq_true, decide_eq_true_eq]
  omega

theorem confIdxs_lt (n i : ℕ) (h : i ∈ confIdxs n) : i < n := by
  simp only [confIdxs, List.mem_filter, List.mem_range] at h
  exact h.1

theorem parse_row_err (row : List String) (e : PyErr) (h : confScan row = .error e) :
    _parse_row row = .error e := by
  rw [_parse_row, h]

/-! ## Lemmas about the row encoder -/

theorem length_eq_four {α : Type} (l : List α) (h : l.length = 4) :
    ∃ a b c d, l = [a, b, c, d] := by
  rcases l with _ | ⟨a, l⟩
  · simp at h
  rcases l with _ | ⟨b, l⟩
  · simp at h
  rcases l with _ | ⟨c, l⟩
  · simp at h
  rcases l with _ | ⟨d, l⟩
  · simp at h
  rcases l with _ | ⟨e, l⟩
  · exact ⟨a, b, c, d, rfl⟩
  · simp at h

theorem featureRow_ok (t : Track) (f : Feature) (r : List String)
    (h : featureRow t f = .ok r) :
    ∃ lab sc, t.confidencePairs.getLast? = some (lab, sc) ∧
      r = [strOfInt t.trackId, "", strOfInt f.frame] ++ f.bounds.map printPyFloat
        ++ [printPyFloat sc, flCol f] ++ confCols t.confidencePairs
        ++ kpCols f ++ atrCols f ++ trkAtrCols t := by
  rcases hg : t.confidencePairs.getLast? with _ | p
  · simp [featureRow, hg] at h
  obtain ⟨lab, sc⟩ := p
  simp only [featureRow, hg, Except.ok.injEq] at h
  exact ⟨lab, sc, rfl, h.symm⟩

theorem writeRows_err_of_empty (t : Track) (fs : List Feature) (f : Feature)
    (hcp : t.confidencePairs = []) :
    writeRows t (f :: fs) = .error .indexError := by
  have hf : featureRow t f = .error .indexError := by simp [featureRow, hcp]
  simp [writeRows, hf]

theorem writeRows_ok_mem (t : Track) :
    ∀ (fs : List Feature) (rows : List (List String)),
      writeRows t fs = .ok rows → ∀ r ∈ rows, ∃ f ∈ fs, featureRow t f = .ok r := by
  intro fs
  induction fs with
  | nil =>
    intro rows h r hr
    simp [writeRows] at h
    rw [h] at hr
    simp at hr
  | cons f rest ih =>
    intro rows h r hr
    rcases hf : featureRow t f with e | r1
    · simp [writeRows, hf] at h
    rcases hw : writeRows t rest with e | rs
    · simp [writeRows, hf, hw] at h
    simp [writeRows, hf, hw] at h
    rw [← h] at hr
    rcases List.mem_cons.mp hr with rfl | hr2
    · exact ⟨f, by simp, hf⟩
    · obtain ⟨f2, hm2, hf2⟩ := ih rs hw r hr2
      exact ⟨f2, List.mem_cons_of_mem _ hm2, hf2⟩

/-! ## Claim theorems -/

/-- C1 (code bug witness): the tag window of this row holds the
well-formed field (trk-atr) foo bar, and the tag scan decodes it into the
per-row track-attribute map as foo mapped to the string bar; yet
aggregating the row raises ValueError instead of merging that entry,
because the merge loop of load_csv_as_tracks iterates the dict's keys
alone and unpacks the three-character name foo as a pair. -/
theorem C1_track_attr_merge_raises :
    tagScan ["1", "", "0", "10.0", "20.0", "30.0", "40.0", "0.9", "5.2", "(trk-atr) foo bar"] =
      .ok { track_attributes := [("foo", Val.str "bar")] } ∧
    load_csv_as_tracks
        [["1", "", "0", "10.0", "20.0", "30.0", "40.0", "0.9", "5.2", "(trk-atr) foo bar"]] =
      .error .valueError := by
  decide

/-- C2: importing the two-row input yields exactly one track with key 1,
begin 0 and end 1, two features in arrival order whose first has
fishLength 5.2 (the rational 26/5) and whose second has fishLength
absent, and confidence pairs fish mapped to 0.9 (the rational 9/10). -/
theorem C2_two_row_end_to_end :
    loadCsvText "1,,0,10.0,20.0,30.0,40.0,0.9,5.2,fish,0.9\n1,,1,11.0,21.0,31.0,41.0,0.9,-1,fish,0.9" =
      .ok [(1,
        { begin := 0, «end» := 1, trackId := 1,
          features := [
            { frame := 0, bounds := [10, 20, 30, 40], fishLength := some (mkRat 26 5) },
            { frame := 1, bounds := [11, 21, 31, 41] }],
          confidencePairs := [("fish", mkRat 9 10)] })] := by
  decide

/-- C3 (code bug witness): decoding a row whose tag window holds
(kp) head 22 32 stores the Feature's head as the pair of raw regex
capture strings 22 and 32, which is not the pair of numeric coordinates
22.0 and 32.0 that the Feature dataclass declares and the claim states. -/
theorem C3_keypoints_stay_text :
    _parse_row_for_tracks
        ["1", "", "0", "10.0", "20.0", "30.0", "40.0", "0.9", "5.2", "(kp) head 22 32"] =
      .ok ({ frame := 0, bounds := [10, 20, 30, 40],
             head := some (Val.str "22", Val.str "32"),
             fishLength := some (mkRat 26 5) }, [], [], []) ∧
    (Val.str "22", Val.str "32") ≠ ((Val.num 22, Val.num 32) : Val × Val) := by
  decide

/-- C5 counterexample: a track with no features and an empty
confidence-pair list exports without any error, returning an empty list of
rows, where the claim as stated demands an error for every track with an
empty confidence-pair list. -/
theorem C5_counterexample :
    write_track_to_csv { begin := 0, «end» := 0, trackId := 5 } = .ok [] ∧
    ({ begin := 0, «end» := 0, trackId := 5 } : Track).confidencePairs = [] := by
  decide

/-- C5 (amended): for a track whose features all carry four bounds,
exporting with an empty confidence-pair list raises IndexError as soon as
there is at least one feature (a featureless track emits nothing and no
error), and exporting with a non-empty list places the printed score of
the last confidence pair in field 7 of every emitted row. -/
theorem C5_export_confidence (t : Track)
    (hb : ∀ f ∈ t.features, f.bounds.length = 4) :
    (t.confidencePairs = [] → t.features ≠ [] → write_track_to_csv t = .error .indexError) ∧
    (∀ lab sc, t.confidencePairs.getLast? = some (lab, sc) →
      ∀ rows, write_track_to_csv t = .ok rows → ∀ r ∈ rows, r[7]? = some (printPyFloat sc)) := by
  constructor
  · intro hcp hne
    rcases hfs : t.features with _ | ⟨f, fs⟩
    · exact absurd hfs hne
    · rw [write_track_to_csv, hfs]
      exact writeRows_err_of_empty t fs f hcp
  · intro lab sc hlast rows hw r hr
    rw [write_track_to_csv] at hw
    obtain ⟨f, hmem, hfr⟩ := writeRows_ok_mem t t.features rows hw r hr
    obtain ⟨lab2, sc2, hlast2, hr2⟩ := featureRow_ok t f r hfr
    rw [hlast] at hlast2
    injection hlast2 with hlast2
    have hsc : sc = sc2 := congrArg Prod.snd hlast2
    obtain ⟨x0, x1, x2, x3, hb4⟩ := length_eq_four f.bounds (hb f hmem)
    rw [hr2, hb4, ← hsc]
    rfl

/-- C5 witness: the amended theorem applied to a concrete one-feature,
one-pair track puts the printed score 0.9 at field 7 of the emitted row. -/
theorem C5_witness :
    (["1", "", "0", "10.0", "20.0", "30.0", "40.0", "0.9", "5.2", "fish", "0.9"] :
      List String)[7]? = some (printPyFloat (mkRat 9 10)) :=
  (C5_export_confidence
      { begin := 0, «end» := 0, trackId := 1,
        features := [{ frame := 0, bounds := [10, 20, 30, 40], fishLength := some (mkRat 26 5) }],
        confidencePairs := [("fish", mkRat 9 10)] }
      (by decide)).2 "fish" (mkRat 9 10) (by decide)
    [["1", "", "0", "10.0", "20.0", "30.0", "40.0", "0.9", "5.2", "fish", "0.9"]] (by decide)
    ["1", "", "0", "10.0", "20.0", "30.0", "40.0", "0.9", "5.2", "fish", "0.9"] (by simp)

/-- C6: for every nonempty row sequence sharing one track id whose
aggregation succeeds, the resulting track's confidence pairs are exactly
the pairs decoded from the last row of the sequence, never a union over
earlier rows. -/
theorem C6_confidence_pairs_last_row_wins (rows : List (List String))
    (tracks : List (ℤ × Track)) (tid : ℤ) (hne : rows ≠ [])
    (hsame : ∀ r ∈ rows, rowTid r = some tid)
    (h : load_csv_as_tracks rows = .ok tracks) :
    ∃ t ps, dictGet tracks tid = some t ∧ confScan (rows.getLast hne) = .ok ps ∧
      t.confidencePairs = ps :=
  loadRows_last_cps rows [] tracks tid hne hsame h

/-- C6 witness: aggregating a fish 0.9 row and then a fish 0.95, shark
0.2 row for track 1 leaves exactly the second row's decoded pairs. -/
theorem C6_witness :
    ∃ t ps,
      dictGet [(1,
        ({ begin := 0, «end» := 1, trackId := 1,
           features := [
             { frame := 0, bounds := [10, 20, 30, 40], fishLength := some (mkRat 26 5) },
             { frame := 1, bounds := [11, 21, 31, 41] }],
           confidencePairs := [("fish", mkRat 19 20), ("shark", mkRat 1 5)] } : Track))] 1 =
        some t ∧
      confScan ["1", "", "1", "11.0", "21.0", "31.0", "41.0", "0.95", "-1",
        "fish", "0.95", "shark", "0.2"] = .ok ps ∧
      t.confidencePairs = ps :=
  C6_confidence_pairs_last_row_wins
    [["1", "", "0", "10.0", "20.0", "30.0", "40.0", "0.9", "5.2", "fish", "0.9"],
     ["1", "", "1", "11.0", "21.0", "31.0", "41.0", "0.95", "-1", "fish", "0.95", "shark", "0.2"]]
    [(1,
      { begin := 0, «end» := 1, trackId := 1,
        features := [
          { frame := 0, bounds := [10, 20, 30, 40], fishLength := some (mkRat 26 5) },
          { frame := 1, bounds := [11, 21, 31, 41] }],
        confidencePairs := [("fish", mkRat 19 20), ("shark", mkRat 1 5)] })]
    1 (by simp) (by decide) (by decide)

/-- C7: after every successful aggregation, each produced track has a
nonempty feature list, its begin is the fold of min over the features'
frames, its end the fold of max, and begin is at most end. -/
theorem C7_frame_range_invariant (rows : List (List String)) (tracks : List (ℤ × Track))
    (h : load_csv_as_tracks rows = .ok tracks) :
    ∀ p ∈ tracks, ∃ f0 fs, p.2.features.map Feature.frame = f0 :: fs ∧
      p.2.begin = fs.foldl min f0 ∧ p.2.«end» = fs.foldl max f0 ∧
      p.2.begin ≤ p.2.«end» := by
  intro p hp
  obtain ⟨f0, fs, hm, hb, he⟩ := loadRows_frames rows [] tracks (by simp) h p hp
  refine ⟨f0, fs, hm, hb, he, ?_⟩
  rw [hb, he]
  exact le_trans (foldl_min_le_init fs f0) (init_le_foldl_max fs f0)

/-- C7 witness: the invariant instantiated at a one-row aggregation and
at the single produced track. -/
theorem C7_witness :
    ∃ f0 fs,
      ({ begin := 5, «end» := 5, trackId := 2, features := [{ frame := 5, bounds := [1, 2, 3, 4] }] } : Track).features.map Feature.frame = f0 :: fs ∧
      ({ begin := 5, «end» := 5, trackId := 2, features := [{ frame := 5, bounds := [1, 2, 3, 4] }] } : Track).begin = fs.foldl min f0 ∧
      ({ begin := 5, «end» := 5, trackId := 2, features := [{ frame := 5, bounds := [1, 2, 3, 4] }] } : Track).«end» = fs.foldl max f0 ∧
      ({ begin := 5, «end» := 5, trackId := 2, features := [{ frame := 5, bounds := [1, 2, 3, 4] }] } : Track).begin ≤ ({ begin := 5, «end» := 5, trackId := 2, features := [{ frame := 5, bounds := [1, 2, 3, 4] }] } : Track).«end» :=
  C7_frame_range_invariant [["2", "", "5", "1.0", "2.0", "3.0", "4.0", "0.5", "-1"]]
    [(2, { begin := 5, «end» := 5, trackId := 2, features := [{ frame := 5, bounds := [1, 2, 3, 4] }] })]
    (by decide)
    (2, { begin := 5, «end» := 5, trackId := 2, features := [{ frame := 5, bounds := [1, 2, 3, 4] }] })
    (by simp)

/-- C8: type inference is total with the stated precedence: the exact
token true gives the boolean true, the exact token false the boolean
false, otherwise a token the float model parses gives that number, and
every other token falls through to itself as a string; being a Lean
function, _deduceType raises nothing on any input. -/
theorem C8_deduce_type_precedence (s : String) :
    (s = "true" → _deduceType s = Val.bool true) ∧
    (s = "false" → _deduceType s = Val.bool false) ∧
    (s ≠ "true" → s ≠ "false" → ∀ q, pyFloat s = some q → _deduceType s = Val.num q) ∧
    (s ≠ "true" → s ≠ "false" → pyFloat s = none → _deduceType s = Val.str s) := by
  refine ⟨fun h => by subst h; decide, fun h => by subst h; decide, ?_, ?_⟩
  · intro h1 h2 q hq
    simp [_deduceType, h1, h2, hq]
  · intro h1 h2 hn
    simp [_deduceType, h1, h2, hn]

/-- C8 witness: the numeric clause applied at the token 7.5. -/
theorem C8_witness : _deduceType "7.5" = Val.num (mkRat 15 2) :=
  (C8_deduce_type_precedence "7.5").2.2.1 (by decide) (by decide) (mkRat 15 2) (by decide)

/-- C9: on any row that decodes, if field 8 parses to a non-positive
number the Feature's fishLength is absent, and if it parses to a positive
number the fishLength is exactly that number. -/
theorem C9_fish_length_threshold (row : List String) (f : Feature)
    (a ta : List (String × Val)) (cps : List (String × ℚ)) (s8 : String) (q : ℚ)
    (h : _parse_row_for_tracks row = .ok (f, a, ta, cps))
    (h8 : row[8]? = some s8) (hq : pyFloat s8 = some q) :
    (q ≤ 0 → f.fishLength = none) ∧ (0 < q → f.fishLength = some q) := by
  obtain ⟨tags, tid, frame, bounds, fl, hpr, hi, _, _, hf⟩ :=
    parse_row_for_tracks_ok row f a ta cps h
  obtain ⟨_, _, _, hgf⟩ := row_info_ok row tid frame bounds fl hi
  obtain ⟨s', hs', hq'⟩ := getFloat_ok row 8 fl hgf
  rw [h8] at hs'
  injection hs' with hs'
  rw [← hs'] at hq'
  rw [hq] at hq'
  injection hq' with hq'
  subst hq'
  subst hf
  constructor
  · intro hle
    have hnp : ¬ 0 < q.num := not_lt.mpr (Rat.num_nonpos.mpr hle)
    simp [featureOf, hnp]
  · intro hpos
    simp [featureOf, Rat.num_pos.mpr hpos]

/-- C9 witness: the positive clause applied at a concrete row whose field
8 is 12.5. -/
theorem C9_witness :
    Feature.fishLength
        { frame := 0, bounds := [10, 20, 30, 40], fishLength := some (mkRat 25 2) } =
      some (mkRat 25 2) :=
  (C9_fish_length_threshold ["1", "", "0", "10.0", "20.0", "30.0", "40.0", "0.9", "12.5"]
      { frame := 0, bounds := [10, 20, 30, 40], fishLength := some (mkRat 25 2) }
      [] [] [] "12.5" (mkRat 25 2) (by decide) (by decide) (by decide)).2
    (Rat.num_pos.mp (by decide))

/-- C10 counterexample: this even-length row's last field x does not
begin with an opening parenthesis, yet decoding fails with ValueError,
not with the out-of-bounds IndexError the claim asserts, because an
earlier confidence score field fails float parsing first. -/
theorem C10_counterexample :
    _parse_row ["1", "", "0", "10.0", "20.0", "30.0", "40.0", "0.9", "5.2", "lab", "bad", "x"] =
      .error .valueError ∧
    PyErr.valueError ≠ PyErr.indexError ∧
    (["1", "", "0", "10.0", "20.0", "30.0", "40.0", "0.9", "5.2", "lab", "bad", "x"] :
      List String).length % 2 = 0 ∧
    (["1", "", "0", "10.0", "20.0", "30.0", "40.0", "0.9", "5.2", "lab", "bad", "x"] :
      List String).getLast? = some "x" ∧
    pyStartsWith "x" "(" = false := by
  decide

/-- C10 (amended): on every row of even length with at least ten fields
whose last field does not begin with an opening parenthesis, decoding
fails with an error rather than returning a result; the error is the
out-of-bounds IndexError from reading one past the end of the row
whenever every earlier confidence score field the scan reaches parses as
a float (otherwise an earlier ValueError wins). -/
theorem C10_even_length_scan_fails (row : List String) (s : String)
    (heven : row.length % 2 = 0) (hlen : 10 ≤ row.length)
    (hs : row[row.length - 1]? = some s) (hpar : pyStartsWith s "(" = false) :
    (∃ e, _parse_row row = .error e) ∧
    ((∀ j ∈ confIdxs row.length, j + 1 < row.length →
        ∀ lb, row[j]? = some lb → pyStartsWith lb "(" = false →
          ∃ q s2, row[j + 1]? = some s2 ∧ pyFloat s2 = some q) →
      _parse_row row = .error .indexError) := by
  have hmem := lastIdx_mem_confIdxs row.length heven hlen
  constructor
  · obtain ⟨e, he⟩ :=
      confGo_not_ok row (confIdxs row.length) (row.length - 1) s hmem (by omega) hs hpar
    exact ⟨e, parse_row_err row e he⟩
  · intro hok
    exact parse_row_err row _ (confGo_idx_err row (confIdxs row.length) s (by omega) hmem
      (fun j hj => confIdxs_lt row.length j hj) hs hpar hok)

/-- C10 witness: the amended theorem applied at a ten-field row ending in
the field x. -/
theorem C10_witness :
    (∃ e, _parse_row ["1", "", "0", "10.0", "20.0", "30.0", "40.0", "0.9", "5.2", "x"] =
      .error e) ∧
    ((∀ j ∈ confIdxs (["1", "", "0", "10.0", "20.0", "30.0", "40.0", "0.9", "5.2", "x"] :
        List String).length,
        j + 1 < (["1", "", "0", "10.0", "20.0", "30.0", "40.0", "0.9", "5.2", "x"] :
          List String).length →
        ∀ lb, (["1", "", "0", "10.0", "20.0", "30.0", "40.0", "0.9", "5.2", "x"] :
          List String)[j]? = some lb → pyStartsWith lb "(" = false →
          ∃ q s2, (["1", "", "0", "10.0", "20.0", "30.0", "40.0", "0.9", "5.2", "x"] :
            List String)[j + 1]? = some s2 ∧ pyFloat s2 = some q) →
      _parse_row ["1", "", "0", "10.0", "20.0", "30.0", "40.0", "0.9", "5.2", "x"] =
        .error .indexError) :=
  C10_even_length_scan_fails ["1", "", "0", "10.0", "20.0", "30.0", "40.0", "0.9", "5.2", "x"]
    "x" (by decide) (by decide) (by decide) (by decide)

/-- C4 counterexample: two valid rows that decode to single-feature,
single-confidence-pair tracks and whose re-encoding does not reproduce
the fixed fields byte for byte: a row whose length field is the valid
text 0 re-encodes with -1 in field 8, and a row whose track id is the
valid text 01 re-encodes with 1 in field 0. -/
theorem C4_counterexample :
    (load_csv_as_tracks [["1", "", "0", "10.0", "20.0", "30.0", "40.0", "0.9", "0", "fish", "0.9"]] =
      .ok [(1,
        { begin := 0, «end» := 0, trackId := 1,
          features := [{ frame := 0, bounds := [10, 20, 30, 40] }],
          confidencePairs := [("fish", mkRat 9 10)] })] ∧
      write_track_to_csv
        { begin := 0, «end» := 0, trackId := 1,
          features := [{ frame := 0, bounds := [10, 20, 30, 40] }],
          confidencePairs := [("fish", mkRat 9 10)] } =
        .ok [["1", "", "0", "10.0", "20.0", "30.0", "40.0", "0.9", "-1", "fish", "0.9"]] ∧
      ("-1" : String) ≠ "0") ∧
    (load_csv_as_tracks [["01", "", "0", "10.0", "20.0", "30.0", "40.0", "0.9", "5.2", "fish", "0.9"]] =
      .ok [(1,
        { begin := 0, «end» := 0, trackId := 1,
          features := [{ frame := 0, bounds := [10, 20, 30, 40], fishLength := some (mkRat 26 5) }],
          confidencePairs := [("fish", mkRat 9 10)] })] ∧
      write_track_to_csv
        { begin := 0, «end» := 0, trackId := 1,
          features := [{ frame := 0, bounds := [10, 20, 30, 40], fishLength := some (mkRat 26 5) }],
          confidencePairs := [("fish", mkRat 9 10)] } =
        .ok [["1", "", "0", "10.0", "20.0", "30.0", "40.0", "0.9", "5.2", "fish", "0.9"]] ∧
      ("1" : String) ≠ "01") := by
  decide

/-- C4 (amended): a valid row that aggregates to a single-feature,
single-confidence-pair track, whose fixed numeric fields are written in
the canonical printed form of their parsed values and whose length field
is positive, re-encodes to one row reproducing fields 0, 2, 3 to 6 and 8
byte for byte, with the suffix laid out in canonical order: confidence
pairs, then keypoints, then detection attributes, then track
attributes. -/
theorem C4_fixed_fields_roundtrip (row : List String) (tags : RowTags)
    (lab : String) (sc : ℚ) (tid frame : ℤ) (b0 b1 b2 b3 fl : ℚ)
    (hp : _parse_row row = .ok (tags, [(lab, sc)]))
    (hi : row_info row = .ok (tid, frame, [b0, b1, b2, b3], fl))
    (hta : ∀ kv ∈ tags.track_attributes, ∃ c1 c2, kv.1.data = [c1, c2])
    (h0 : row[0]? = some (strOfInt tid))
    (h2 : row[2]? = some (strOfInt frame))
    (h3 : row[3]? = some (printPyFloat b0))
    (h4 : row[4]? = some (printPyFloat b1))
    (h5 : row[5]? = some (printPyFloat b2))
    (h6 : row[6]? = some (printPyFloat b3))
    (h8 : row[8]? = some (printPyFloat fl))
    (hfl : 0 < fl) :
    ∃ t f out,
      load_csv_as_tracks [row] = .ok [(tid, t)] ∧
      t.features = [f] ∧
      write_track_to_csv t = .ok [out] ∧
      out = [strOfInt tid, "", strOfInt frame, printPyFloat b0, printPyFloat b1,
             printPyFloat b2, printPyFloat b3, printPyFloat sc, printPyFloat fl]
        ++ confCols t.confidencePairs ++ kpCols f ++ atrCols f ++ trkAtrCols t ∧
      confCols t.confidencePairs = [lab, printPyFloat sc] ∧
      out[0]? = row[0]? ∧ out[2]? = row[2]? ∧ out[3]? = row[3]? ∧ out[4]? = row[4]? ∧
      out[5]? = row[5]? ∧ out[6]? = row[6]? ∧ out[8]? = row[8]? := by
  have hppfl : _parse_row_for_tracks row =
      .ok (featureOf tags frame [b0, b1, b2, b3] fl,
        tags.attributes, tags.track_attributes, [(lab, sc)]) := by
    rw [_parse_row_for_tracks, hp, hi]
  obtain ⟨t2, hm⟩ := mergeTrackAttrs_total tags.track_attributes
    (updateTrack { begin := frame, «end» := frame, trackId := tid } frame
      (featureOf tags frame [b0, b1, b2, b3] fl) [(lab, sc)]) hta
  obtain ⟨hbeg, hend, htid2, hfeat, hcps⟩ := mergeTrackAttrs_ok tags.track_attributes _ t2 hm
  have hfeat2 : t2.features = [featureOf tags frame [b0, b1, b2, b3] fl] := by
    rw [hfeat]
    rfl
  have hcps2 : t2.confidencePairs = [(lab, sc)] := hcps
  have htid3 : t2.trackId = tid := htid2
  have hproc : processRow [] row = .ok [(tid, t2)] := by
    simp only [processRow, hppfl, hi, trackFor, dictGet]
    rw [hm]
    rfl
  have hload : load_csv_as_tracks [row] = .ok [(tid, t2)] := by
    show loadRows [] [row] = _
    rw [loadRows, hproc]
    rfl
  have hflpos : 0 < fl.num := Rat.num_pos.mpr hfl
  have hfl0 : fl ≠ 0 := ne_of_gt hfl
  have hflcol : flCol (featureOf tags frame [b0, b1, b2, b3] fl) = printPyFloat fl := by
    simp [featureOf, flCol, hflpos, hfl0]
  have hlast : t2.confidencePairs.getLast? = some (lab, sc) := by
    rw [hcps2]
    rfl
  have hfr : featureRow t2 (featureOf tags frame [b0, b1, b2, b3] fl) =
      .ok ([strOfInt tid, "", strOfInt frame, printPyFloat b0, printPyFloat b1,
            printPyFloat b2, printPyFloat b3, printPyFloat sc, printPyFloat fl]
        ++ confCols t2.confidencePairs ++ kpCols (featureOf tags frame [b0, b1, b2, b3] fl)
        ++ atrCols (featureOf tags frame [b0, b1, b2, b3] fl) ++ trkAtrCols t2) := by
    rw [featureRow]
    rw [hlast]
    rw [htid3, hflcol]
    rfl
  have hwrite : write_track_to_csv t2 =
      .ok [[strOfInt tid, "", strOfInt frame, printPyFloat b0, printPyFloat b1,
            printPyFloat b2, printPyFloat b3, printPyFloat sc, printPyFloat fl]
        ++ confCols t2.confidencePairs ++ kpCols (featureOf tags frame [b0, b1, b2, b3] fl)
        ++ atrCols (featureOf tags frame [b0, b1, b2, b3] fl) ++ trkAtrCols t2] := by
    rw [write_track_to_csv, hfeat2, writeRows, hfr]
    rfl
  refine ⟨t2, featureOf tags frame [b0, b1, b2, b3] fl,
    [strOfInt tid, "", strOfInt frame, printPyFloat b0, printPyFloat b1,
     printPyFloat b2, printPyFloat b3, printPyFloat sc, printPyFloat fl]
      ++ confCols t2.confidencePairs ++ kpCols (featureOf tags frame [b0, b1, b2, b3] fl)
      ++ atrCols (featureOf tags frame [b0, b1, b2, b3] fl) ++ trkAtrCols t2,
    hload, hfeat2, hwrite, rfl, ?_, ?_, ?_, ?_, ?_, ?_, ?_, ?_⟩
  · rw [hcps2]
    rfl
  · rw [h0]
    rfl
  · rw [h2]
    rfl
  · rw [h3]
    rfl
  · rw [h4]
    rfl
  · rw [h5]
    rfl
  · rw [h6]
    rfl
  · rw [h8]
    simp [List.append_assoc, List.getElem?_append]

/-- C4 witness: the amended round-trip theorem applied to a concrete
canonical row, which decodes and re-encodes to itself. -/
theorem C4_witness :
    ∃ t f out,
      load_csv_as_tracks
          [["1", "", "0", "10.0", "20.0", "30.0", "40.0", "0.9", "5.2", "fish", "0.9"]] =
        .ok [(1, t)] ∧
      t.features = [f] ∧
      write_track_to_csv t = .ok [out] ∧
      out = [strOfInt 1, "", strOfInt 0, printPyFloat 10, printPyFloat 20,
             printPyFloat 30, printPyFloat 40, printPyFloat (mkRat 9 10), printPyFloat (mkRat 26 5)]
        ++ confCols t.confidencePairs ++ kpCols f ++ atrCols f ++ trkAtrCols t ∧
      confCols t.confidencePairs = ["fish", printPyFloat (mkRat 9 10)] ∧
      out[0]? = (["1", "", "0", "10.0", "20.0", "30.0", "40.0", "0.9", "5.2", "fish", "0.9"] :
        List String)[0]? ∧
      out[2]? = (["1", "", "0", "10.0", "20.0", "30.0", "40.0", "0.9", "5.2", "fish", "0.9"] :
        List String)[2]? ∧
      out[3]? = (["1", "", "0", "10.0", "20.0", "30.0", "40.0", "0.9", "5.2", "fish", "0.9"] :
        List String)[3]? ∧
      out[4]? = (["1", "", "0", "10.0", "20.0", "30.0", "40.0", "0.9", "5.2", "fish", "0.9"] :
        List String)[4]? ∧
      out[5]? = (["1", "", "0", "10.0", "20.0", "30.0", "40.0", "0.9", "5.2", "fish", "0.9"] :
        List String)[5]? ∧
      out[6]? = (["1", "", "0", "10.0", "20.0", "30.0", "40.0", "0.9", "5.2", "fish", "0.9"] :
        List String)[6]? ∧
      out[8]? = (["1", "", "0", "10.0", "20.0", "30.0", "40.0", "0.9", "5.2", "fish", "0.9"] :
        List String)[8]? :=
  C4_fixed_fields_roundtrip
    ["1", "", "0", "10.0", "20.0", "30.0", "40.0", "0.9", "5.2", "fish", "0.9"]
    {} "fish" (mkRat 9 10) 1 0 10 20 30 40 (mkRat 26 5)
    (by decide) (by decide) (by simp) (by decide) (by decide) (by decide) (by decide)
    (by decide) (by decide) (by decide) (Rat.num_pos.mp (by decide))

end Viame
